import Mathlib

/-!
Verification of the Unity MCP server's UI Toolkit scaffolding core.

The errors module (`src/errors/index.ts`) is embedded directly.  The
`UIToolkitService` implementation itself is not part of the source tree
(only its test suite is), so the service — name sanitizer, template
catalog, meta identity store, asset locator and orchestrator — is
modelled from the specification, with the behavior the in-repo test
suite pins down (messages, meta-file format, directory layout) kept
faithful.  Strings are embedded as `List Char` so every definition is
executable and every concrete run can be checked by `decide`/`rfl`.
-/

namespace UnityMCP

/-- Embedding of a thrown JavaScript `Error` object: the `name` field set by
each error class constructor and the `message` passed to `super(...)`. -/
structure ErrObj where
  name : String
  message : String
deriving DecidableEq, Repr

/-- From src/errors/index.ts: `UnityProjectNotSetError` carries a fixed message. -/
def UnityProjectNotSetError : ErrObj :=
  ⟨"UnityProjectNotSetError", "Unity project not set. Use set_unity_project first."⟩

/-- From src/errors/index.ts: `InvalidUnityProjectError`. -/
def InvalidUnityProjectError (message : String) : ErrObj :=
  ⟨"InvalidUnityProjectError", message⟩

/-- From src/errors/index.ts: `FileNotFoundError` with explicit `fileType`. -/
def FileNotFoundError (fileName fileType : String) : ErrObj :=
  ⟨"FileNotFoundError", fileType ++ " " ++ fileName ++ " not found."⟩

/-- From src/errors/index.ts: `FileNotFoundError` applied at its default
`fileType = 'File'` argument. -/
def FileNotFoundErrorDefault (fileName : String) : ErrObj :=
  FileNotFoundError fileName "File"

/-- From src/errors/index.ts: `BuildError`. -/
def BuildError (message : String) : ErrObj :=
  ⟨"BuildError", message⟩

/-- From src/errors/index.ts: `InvalidParameterError`. -/
def InvalidParameterError (message : String) : ErrObj :=
  ⟨"InvalidParameterError", message⟩

/-- From src/errors/index.ts: `FileOperationError`. -/
def FileOperationError (message : String) : ErrObj :=
  ⟨"FileOperationError", message⟩

/-- From src/errors/index.ts: `ShaderCompilationError`. -/
def ShaderCompilationError (message : String) : ErrObj :=
  ⟨"ShaderCompilationError", message⟩

/-- From src/errors/index.ts: `MaterialError`. -/
def MaterialError (message : String) : ErrObj :=
  ⟨"MaterialError", message⟩

/-- From src/errors/index.ts: `AssetNotFoundError`. -/
def AssetNotFoundError (message : String) : ErrObj :=
  ⟨"AssetNotFoundError", message⟩

/-- Claim C10: every error class exported by the errors module constructs an
Error whose `name` field equals the class's own name; `UnityProjectNotSetError`
always carries the fixed message `Unity project not set. Use set_unity_project
first.`, and `FileNotFoundError`'s message is `<fileType> <fileName> not
found.` with `fileType` defaulting to `File`. -/
theorem error_classes_names_and_messages :
    UnityProjectNotSetError.name = "UnityProjectNotSetError" ∧
    UnityProjectNotSetError.message =
      "Unity project not set. Use set_unity_project first." ∧
    (∀ m, (InvalidUnityProjectError m).name = "InvalidUnityProjectError") ∧
    (∀ fn ft, (FileNotFoundError fn ft).name = "FileNotFoundError" ∧
      (FileNotFoundError fn ft).message = ft ++ " " ++ fn ++ " not found.") ∧
    (∀ fn, FileNotFoundErrorDefault fn = FileNotFoundError fn "File" ∧
      (FileNotFoundErrorDefault fn).message = "File " ++ fn ++ " not found.") ∧
    (∀ m, (BuildError m).name = "BuildError") ∧
    (∀ m, (InvalidParameterError m).name = "InvalidParameterError") ∧
    (∀ m, (FileOperationError m).name = "FileOperationError") ∧
    (∀ m, (ShaderCompilationError m).name = "ShaderCompilationError") ∧
    (∀ m, (MaterialError m).name = "MaterialError") ∧
    (∀ m, (AssetNotFoundError m).name = "AssetNotFoundError") := by
  refine ⟨rfl, rfl, fun m => rfl, fun fn ft => ⟨rfl, rfl⟩, fun fn => ⟨rfl, ?_⟩,
    fun m => rfl, fun m => rfl, fun m => rfl, fun m => rfl, fun m => rfl,
    fun m => rfl⟩
  simp [FileNotFoundErrorDefault, FileNotFoundError]

/-! ## Character-list machinery

Paths and file bodies are `List Char`.  Splitting on separator characters,
joining segments, and prefix matching are defined structurally so that every
fact about them is provable by list induction. -/

/-- Path separator characters recognized by the sanitizer: forward and
backward slash. -/
def isSep (c : Char) : Bool := c == '/' || c == '\\'

/-- Newline test, used to cut sidecar bodies into lines. -/
def isNL (c : Char) : Bool := c == '\n'

/-- Worker for splitting a character list at every character satisfying `p`;
`acc` holds the reversed characters of the segment currently being read. -/
def splitOnAux (p : Char → Bool) : List Char → List Char → List (List Char)
  | [], acc => [acc.reverse]
  | c :: cs, acc =>
    if p c then acc.reverse :: splitOnAux p cs []
    else splitOnAux p cs (c :: acc)

/-- Split a character list at every character satisfying `p`. -/
def splitOnP (p : Char → Bool) (cs : List Char) : List (List Char) :=
  splitOnAux p cs []

/-- The path segments of a path string: split at `/` and `\`. -/
def pathSegs (cs : List Char) : List (List Char) := splitOnP isSep cs

/-- The lines of a line-oriented text body: split at newlines. -/
def linesOf (cs : List Char) : List (List Char) := splitOnP isNL cs

/-- Join segments with a single separator character between them. -/
def joinSep (sep : Char) : List (List Char) → List Char
  | [] => []
  | [s] => s
  | s :: t :: rest => s ++ sep :: joinSep sep (t :: rest)

/-- Strip `pre` from the front of a character list, or fail. -/
def dropPrefixChars : List Char → List Char → Option (List Char)
  | [], cs => some cs
  | _ :: _, [] => none
  | p :: ps, c :: cs => if p == c then dropPrefixChars ps cs else none

theorem splitOnAux_append_sep (p : Char → Bool) (c : Char) (hc : p c = true) :
    ∀ (xs : List Char) (acc ys : List Char),
      splitOnAux p (xs ++ c :: ys) acc =
        splitOnAux p xs acc ++ splitOnAux p ys [] := by
  intro xs
  induction xs with
  | nil => intro acc ys; simp [splitOnAux, hc]
  | cons x xs ih =>
    intro acc ys
    by_cases hx : p x = true
    · simp [splitOnAux, hx, ih]
    · simp at hx
      simp [splitOnAux, hx, ih]

theorem splitOnAux_no_sep (p : Char → Bool) :
    ∀ (xs acc : List Char), (∀ a ∈ xs, p a = false) →
      splitOnAux p xs acc = [acc.reverse ++ xs] := by
  intro xs
  induction xs with
  | nil => intro acc _; simp [splitOnAux]
  | cons x xs ih =>
    intro acc h
    have hx : p x = false := h x (List.mem_cons_self x xs)
    have hrest : ∀ a ∈ xs, p a = false := fun a ha => h a (List.mem_cons_of_mem x ha)
    simp [splitOnAux, hx, ih (x :: acc) hrest]

theorem splitOnP_no_sep (p : Char → Bool) (xs : List Char)
    (h : ∀ a ∈ xs, p a = false) : splitOnP p xs = [xs] := by
  simpa using splitOnAux_no_sep p xs [] h

theorem mem_splitOnAux_no_sep (p : Char → Bool) :
    ∀ (xs acc : List Char), (∀ a ∈ acc, p a = false) →
      ∀ s ∈ splitOnAux p xs acc, ∀ a ∈ s, p a = false := by
  intro xs
  induction xs with
  | nil =>
    intro acc hacc s hs a ha
    simp [splitOnAux] at hs
    subst hs
    exact hacc a (by simpa using ha)
  | cons x xs ih =>
    intro acc hacc s hs a ha
    by_cases hx : p x = true
    · simp [splitOnAux, hx] at hs
      rcases hs with hs | hs
      · subst hs; exact hacc a (by simpa using ha)
      · exact ih [] (by simp) s hs a ha
    · simp at hx
      simp [splitOnAux, hx] at hs
      have hacc' : ∀ a ∈ x :: acc, p a = false := by
        intro b hb
        rcases List.mem_cons.mp hb with rfl | hb
        · exact hx
        · exact hacc b hb
      exact ih (x :: acc) hacc' s hs a ha

theorem mem_splitOnP_no_sep (p : Char → Bool) (xs : List Char) :
    ∀ s ∈ splitOnP p xs, ∀ a ∈ s, p a = false := by
  intro s hs
  exact mem_splitOnAux_no_sep p xs [] (by simp) s hs

theorem joinSep_no_sep (q : Char → Bool) (sep : Char) (hsep : q sep = false) :
    ∀ ss : List (List Char), (∀ s ∈ ss, ∀ a ∈ s, q a = false) →
      ∀ a ∈ joinSep sep ss, q a = false := by
  intro ss
  induction ss with
  | nil => intro _ a ha; simp [joinSep] at ha
  | cons s rest ih =>
    intro h a ha
    cases rest with
    | nil =>
      simp [joinSep] at ha
      exact h s (by simp) a ha
    | cons t r =>
      simp [joinSep] at ha
      rcases ha with ha | rfl | ha
      · exact h s (by simp) a ha
      · exact hsep
      · refine ih (fun u hu b hb => h u (List.mem_cons_of_mem s hu) b hb) a ?_
        simpa [joinSep] using ha

theorem dropPrefixChars_append (pre : List Char) :
    ∀ rest : List Char, dropPrefixChars pre (pre ++ rest) = some rest := by
  induction pre with
  | nil => intro rest; simp [dropPrefixChars]
  | cons p ps ih => intro rest; simp [dropPrefixChars, ih]

theorem isPrefixOf_append_both (a : List Char) :
    ∀ b c : List Char, List.isPrefixOf (a ++ b) (a ++ c) = List.isPrefixOf b c := by
  induction a with
  | nil => intro b c; simp
  | cons x xs ih => intro b c; simp [List.isPrefixOf, ih]

theorem isPrefixOf_append_self (a r : List Char) :
    List.isPrefixOf a (a ++ r) = true := by
  simp

/-! ## Name sanitizer (spec §4.1) -/

/-- A path segment the sanitizer removes: empty segments (doubled or leading
separators, absolute paths), current/parent-directory segments, and drive
prefixes such as `C:`. -/
def badSeg (s : List Char) : Bool :=
  s.isEmpty || s == ['.'] || s == ['.', '.'] || s.getLastD ' ' == ':'

/-- Modelled from the spec: the Name Sanitizer of the missing
`UIToolkitService` (src/services/ui-toolkit-service.ts is not in the source
tree).  Splits the supplied name at path separators, removes empty,
current-directory, parent-directory and drive-prefix segments, and joins what
remains with `_`, so the result is a single safe file stem; returns `none`
when the input is empty or nothing remains. -/
def sanitizeStem (name : List Char) : Option (List Char) :=
  let segs := (pathSegs name).filter (fun s => !badSeg s)
  let stem := joinSep '_' segs
  if stem.isEmpty then none else some stem

/-- Remove a trailing extension (dot included in `ext`) when present;
otherwise return the stem unchanged. -/
def stripExtSuffix (ext stem : List Char) : List Char :=
  if ext.isSuffixOf stem then stem.take (stem.length - ext.length) else stem

/-- Modelled from the spec: full sanitizer contract of the missing
`UIToolkitService` — neutralize traversal constructs, strip a redundant
extension matching the target kind, and fail with `InvalidParameterError`
when the name is empty or empties out after stripping. -/
def sanitizeName (ext name : List Char) : Except ErrObj (List Char) :=
  match sanitizeStem name with
  | none => .error (InvalidParameterError ("fileName must be a non-empty string"))
  | some stem =>
    let s := stripExtSuffix ext stem
    if s.isEmpty then
      .error (InvalidParameterError ("fileName must be a non-empty string"))
    else .ok s

/-- Extension of markup assets. -/
def uxmlExt : List Char := ".uxml".toList

/-- Extension of stylesheet assets. -/
def ussExt : List Char := ".uss".toList

/-- Extension of behavior-script assets. -/
def csExt : List Char := ".cs".toList

/-- Suffix appended to a primary file's name to form its sidecar's name. -/
def metaSuffix : List Char := ".meta".toList

/-! ## Meta identity store (spec §4.3) -/

/-- Fallback token used when the modelled supply of fresh identities is
exhausted; a run is always given a long enough supply. -/
def defaultGuid : List Char := "00000000000000000000000000000000".toList

/-- Modelled from the spec: `renderSidecar` of the missing Meta Identity
Store — a deterministic line-oriented body embedding the identity (the
`guid:` line, pinned by the test suite together with `fileFormatVersion: 2`)
and the importer kind (`ScriptedImporter`). -/
def renderMetaContent (guid : List Char) : List Char :=
  "fileFormatVersion: 2".toList ++
  '\n' :: ("guid: ".toList ++ guid) ++
  '\n' :: "ScriptedImporter:".toList ++
  '\n' :: "  userData: ".toList ++
  '\n' :: "  assetBundleName: ".toList ++
  '\n' :: "  assetBundleVariant: ".toList

/-- Return the token of the first line carrying the identity key. -/
def firstGuidLine : List (List Char) → Option (List Char)
  | [] => none
  | l :: ls =>
    match dropPrefixChars ("guid: ".toList) l with
    | some rest => some rest
    | none => firstGuidLine ls

/-- Modelled from the spec: `readIdentity` of the missing Meta Identity
Store — scan the sidecar body line by line for the identity key and return
the rest of the first matching line; fail soft with `none` on any parse
miss. -/
def parseGuidFromMeta (content : List Char) : Option (List Char) :=
  firstGuidLine (linesOf content)

/-! ## Template catalog (spec §4.2)

The template bodies are modelled from the spec; the identifier-bearing
positions each template must contain (`window-container`, `ok-button`,
`root-container`, `panel-header`, `submit-button`, `modal-overlay`,
`MonoBehaviour`, `UIDocument`, ...) are the ones the in-repo test suite
asserts. -/

/-- Markup skeleton for the `window` variant. -/
def uxmlWindowTemplate (name : List Char) : List Char :=
  "<ui:UXML xmlns:ui=\"UnityEngine.UIElements\">\n  <ui:VisualElement name=\"".toList ++
  name ++
  "-window\" class=\"window-container\">\n    <ui:Label text=\"".toList ++
  name ++
  "\" class=\"window-title\" />\n    <ui:Button name=\"ok-button\" text=\"OK\" />\n  </ui:VisualElement>\n</ui:UXML>\n".toList

/-- Markup skeleton for the `document` variant; also the base/default
skeleton every unknown markup variant falls back to. -/
def uxmlDocumentTemplate (name : List Char) : List Char :=
  "<ui:UXML xmlns:ui=\"UnityEngine.UIElements\">\n  <ui:VisualElement name=\"".toList ++
  name ++
  "\" class=\"root-container\">\n  </ui:VisualElement>\n</ui:UXML>\n".toList

/-- Markup skeleton for the `panel` variant. -/
def uxmlPanelTemplate (name : List Char) : List Char :=
  "<ui:UXML xmlns:ui=\"UnityEngine.UIElements\">\n  <ui:VisualElement name=\"".toList ++
  name ++
  "\" class=\"panel-container\">\n    <ui:VisualElement class=\"panel-header\">\n      <ui:Button name=\"close-button\" text=\"X\" />\n    </ui:VisualElement>\n  </ui:VisualElement>\n</ui:UXML>\n".toList

/-- Markup skeleton for the `form` variant. -/
def uxmlFormTemplate (name : List Char) : List Char :=
  "<ui:UXML xmlns:ui=\"UnityEngine.UIElements\">\n  <ui:VisualElement name=\"".toList ++
  name ++
  "\" class=\"form-container\">\n    <ui:TextField name=\"input-field\" />\n    <ui:Toggle name=\"remember-toggle\" />\n    <ui:Button name=\"submit-button\" text=\"Submit\" />\n  </ui:VisualElement>\n</ui:UXML>\n".toList

/-- Markup skeleton for the `modal` variant. -/
def uxmlModalTemplate (name : List Char) : List Char :=
  "<ui:UXML xmlns:ui=\"UnityEngine.UIElements\">\n  <ui:VisualElement class=\"modal-overlay\">\n    <ui:VisualElement name=\"".toList ++
  name ++
  "\" class=\"modal-container\">\n      <ui:Button name=\"confirm-button\" text=\"Confirm\" />\n    </ui:VisualElement>\n  </ui:VisualElement>\n</ui:UXML>\n".toList

/-- Modelled from the spec: markup template selection by variant tag, with
unknown variants resolving to the base `document` skeleton. -/
def uxmlTemplate (variant name : List Char) : List Char :=
  if variant == "window".toList then uxmlWindowTemplate name
  else if variant == "panel".toList then uxmlPanelTemplate name
  else if variant == "form".toList then uxmlFormTemplate name
  else if variant == "modal".toList then uxmlModalTemplate name
  else uxmlDocumentTemplate name

/-- Message of the `InvalidParameterError` raised when the `custom` variant
is requested without a body. -/
def customRequiredMsg : String :=
  "customContent is required when templateType is custom"

/-- Modelled from the spec: the markup arm of the template catalog's
`render` — `custom` requires a non-empty caller-supplied body and returns it
verbatim; every other variant renders a skeleton. -/
def renderUXML (variant name : List Char) (customBody : Option (List Char)) :
    Except ErrObj (List Char) :=
  if variant == "custom".toList then
    match customBody with
    | none => .error (InvalidParameterError customRequiredMsg)
    | some b =>
      if b.isEmpty then .error (InvalidParameterError customRequiredMsg)
      else .ok b
  else .ok (uxmlTemplate variant name)

/-- Stylesheet skeleton for the `theme` variant. -/
def ussThemeTemplate : List Char :=
  ":root \x7b\n  --primary-color: #2196F3;\n  --background-color: #1e1e1e;\n\x7d\n\n.button \x7b\n  background-color: var(--primary-color);\n\x7d\n".toList

/-- Stylesheet skeleton for the `utilities` variant. -/
def ussUtilitiesTemplate : List Char :=
  ".flex-row \x7b\n  flex-direction: row;\n\x7d\n\n.m-0 \x7b\n  margin: 0;\n\x7d\n\n.text-primary \x7b\n  color: var(--primary-color);\n\x7d\n".toList

/-- Stylesheet skeleton used for components and as the default arm: its
selectors derive from the variant tag so they cross-reference the paired
markup skeleton (`.panel-container` / `.panel-header` for `panel`). -/
def componentUSS (variant : List Char) : List Char :=
  ('.' :: variant ++ "-container \x7b\n  flex-grow: 1;\n\x7d\n\n.".toList) ++
  variant ++
  "-header \x7b\n  font-size: 14px;\n\x7d\n".toList

/-- Modelled from the spec: stylesheet template selection by variant tag. -/
def ussTemplate (variant : List Char) : List Char :=
  if variant == "theme".toList then ussThemeTemplate
  else if variant == "utilities".toList then ussUtilitiesTemplate
  else componentUSS variant

/-- Modelled from the spec: behavior-script skeleton — the generated type
name derives from the sanitized logical name. -/
def csController (name : List Char) : List Char :=
  "using UnityEngine;\nusing UnityEngine.UIElements;\n\npublic class ".toList ++
  name ++
  " : MonoBehaviour\n\x7b\n    private UIDocument document;\n\n    private void OnEnable()\n    \x7b\n        document = GetComponent<UIDocument>();\n    \x7d\n\x7d\n".toList

/-- The asset kinds of the template catalog. -/
inductive AssetKind
  | markup
  | stylesheet
  | behaviorScript
deriving DecidableEq

/-- Modelled from the spec: the template catalog's single entry point
`render(kind, variant, logicalName, customBody?)`. -/
def render (kind : AssetKind) (variant name : List Char)
    (customBody : Option (List Char)) : Except ErrObj (List Char) :=
  match kind with
  | .markup => renderUXML variant name customBody
  | .stylesheet => .ok (ussTemplate variant)
  | .behaviorScript => .ok (csController name)

/-! ## Project context, filesystem model and asset locator (spec §3, §4.4)

The filesystem is a write history: a list of `(path, content)` pairs with
the most recent write first.  Reading a path returns its most recent
content; the locator scans the history, so it sees the most recently
written file with a matching name first (the spec leaves the match order
among duplicate stems unspecified). -/

/-- The project context supplied by the external registration collaborator;
every generated path is computed relative to `assetsPath`. -/
structure UnityProject where
  assetsPath : List Char
deriving DecidableEq

/-- State threaded through an operation: the filesystem write history and
the supply of fresh identity tokens the random source will hand out next. -/
structure SState where
  fs : List (List Char × List Char)
  guids : List (List Char)
deriving DecidableEq

/-- Join two path fragments with a single separator. -/
def pathJoin (a b : List Char) : List Char := a ++ '/' :: b

/-- The file-name component of a path: its last segment. -/
def fileNameOfPath (p : List Char) : List Char := (pathSegs p).getLastD []

/-- Whether `p` lies strictly below the directory `base`. -/
def isUnder (base p : List Char) : Bool := (base ++ ['/']).isPrefixOf p

/-- Most recent content written at `path`, if any. -/
def readFileFS (path : List Char) (fs : List (List Char × List Char)) :
    Option (List Char) :=
  (fs.find? (fun e => e.1 == path)).map (fun e => e.2)

/-- Modelled from the spec: the Asset Locator's `find` — resolve a bare
file name to the path of a matching file anywhere below the assets root, or
`none`; an empty tree yields `none` rather than an error. -/
def findUIFile (proj : UnityProject) (st : SState) (target : List Char) :
    Option (List Char) :=
  (st.fs.find? (fun e =>
    isUnder proj.assetsPath e.1 && fileNameOfPath e.1 == target)).map
    (fun e => e.1)

/-- The entries the locator's `listAll` reports: every file below the assets
root carrying the markup extension. -/
def uxmlMatches (proj : UnityProject) (st : SState) :
    List (List Char × List Char) :=
  st.fs.filter (fun e =>
    isUnder proj.assetsPath e.1 && uxmlExt.isSuffixOf e.1)

/-! ## Scaffolding orchestrator (spec §4.5) -/

/-- Directory that holds markup assets. -/
def uxmlDir (proj : UnityProject) : List Char :=
  pathJoin proj.assetsPath ("UI".toList)

/-- Target path of the markup asset with the given sanitized stem. -/
def uxmlPath (proj : UnityProject) (stem : List Char) : List Char :=
  pathJoin (uxmlDir proj) (stem ++ uxmlExt)

/-- Target path of the sidecar of the markup asset with the given stem. -/
def uxmlMetaPath (proj : UnityProject) (stem : List Char) : List Char :=
  uxmlPath proj stem ++ metaSuffix

/-- Success message of `createUXML`, as pinned by the test suite. -/
def createMsg (stem : List Char) : List Char :=
  "UXML file \"".toList ++ stem ++ ".uxml\" created successfully".toList

/-- Success message of `updateUXML`, as pinned by the test suite. -/
def updateMsg (name : List Char) : List Char :=
  "UXML file \"".toList ++ name ++ "\" updated successfully".toList

/-- The NotFound failure of the update/read paths, with the message the test
suite pins and the error name the spec's taxonomy assigns. -/
def uxmlNotFoundError (name : List Char) : ErrObj :=
  ⟨"FileNotFoundError", "UXML file not found: " ++ String.mk name⟩

/-- Modelled from the spec: `create` for markup assets — sanitize, render,
mint a fresh identity, then write the primary file followed by its sidecar
under `Assets/UI/`. -/
def createUXML (proj : UnityProject) (st : SState)
    (fileName variant : List Char) (customBody : Option (List Char)) :
    SState × Except ErrObj (List Char) :=
  match sanitizeName uxmlExt fileName with
  | .error e => (st, .error e)
  | .ok stem =>
    match renderUXML variant stem customBody with
    | .error e => (st, .error e)
    | .ok body =>
      (⟨(uxmlMetaPath proj stem,
          renderMetaContent (st.guids.headD defaultGuid)) ::
        (uxmlPath proj stem, body) :: st.fs,
        st.guids.tail⟩,
       .ok (createMsg stem))

/-- Modelled from the spec: `update` — locate the existing primary file,
overwrite it verbatim, and rewrite its sidecar reusing the identity parsed
from the existing sidecar, minting a fresh one only when the sidecar is
missing or unparseable. -/
def updateUXML (proj : UnityProject) (st : SState)
    (fileName content : List Char) : SState × Except ErrObj (List Char) :=
  if fileName.isEmpty || content.isEmpty then
    (st, .error (InvalidParameterError ("fileName and content are required")))
  else
    match sanitizeName uxmlExt fileName with
    | .error e => (st, .error e)
    | .ok stem =>
      match findUIFile proj st (stem ++ uxmlExt) with
      | none => (st, .error (uxmlNotFoundError fileName))
      | some path =>
        match (readFileFS (path ++ metaSuffix) st.fs).bind parseGuidFromMeta with
        | some g =>
          (⟨(path ++ metaSuffix, renderMetaContent g) ::
            (path, content) :: st.fs, st.guids⟩,
           .ok (updateMsg fileName))
        | none =>
          (⟨(path ++ metaSuffix,
              renderMetaContent (st.guids.headD defaultGuid)) ::
            (path, content) :: st.fs, st.guids.tail⟩,
           .ok (updateMsg fileName))

/-- Modelled from the spec: `read` — locate the primary file and return its
raw content; fail with the NotFound error when the locator finds nothing,
touching nothing on the filesystem. -/
def readUXML (proj : UnityProject) (st : SState) (fileName : List Char) :
    SState × Except ErrObj (List Char) :=
  match sanitizeName uxmlExt fileName with
  | .error e => (st, .error e)
  | .ok stem =>
    match findUIFile proj st (stem ++ uxmlExt) with
    | none => (st, .error (uxmlNotFoundError fileName))
    | some path => (st, .ok ((readFileFS path st.fs).getD []))

/-- The fixed report returned when no markup files exist. -/
def noUxmlMsg : List Char := "No UXML files found in the project".toList

/-- Modelled from the spec: `listAll` — report every markup file below the
assets root, or the fixed no-files message when there are none; an empty or
absent subtree is not an error. -/
def listUXMLFiles (proj : UnityProject) (st : SState) :
    SState × Except ErrObj (List Char) :=
  let ms := uxmlMatches proj st
  if ms.isEmpty then (st, .ok noUxmlMsg)
  else (st, .ok (joinSep '\n' (ms.map (fun e => e.1))))

/-- Per-component directory below `Assets/UI/Components/`. -/
def componentDir (proj : UnityProject) (stem : List Char) : List Char :=
  pathJoin (pathJoin (uxmlDir proj) ("Components".toList)) stem

/-- Aggregate success message of `createUIComponent`, as pinned by the test
suite. -/
def componentMsg (stem : List Char) : List Char :=
  "UI component \"".toList ++ stem ++
  "\" created successfully\nUXML: ".toList ++ stem ++
  ".uxml\nUSS: ".toList ++ stem ++
  ".uss\nController: ".toList ++ stem ++ ".cs".toList

/-- Modelled from the spec: `createComponent` — render one markup, one
stylesheet and one behavior-script file from the same sanitized name into a
shared per-component subdirectory, writing each primary file together with
its own sidecar (one sidecar per primary file, as the persisted-layout
section of the spec and the test suite's six-write assertion fix). -/
def createUIComponent (proj : UnityProject) (st : SState)
    (fileName variant : List Char) : SState × Except ErrObj (List Char) :=
  match sanitizeStem fileName with
  | none =>
    (st, .error (InvalidParameterError ("fileName must be a non-empty string")))
  | some stem =>
    let dir := componentDir proj stem
    let uxmlP := pathJoin dir (stem ++ uxmlExt)
    let ussP := pathJoin dir (stem ++ ussExt)
    let csP := pathJoin dir (stem ++ csExt)
    let g1 := st.guids.headD defaultGuid
    let g2 := st.guids.tail.headD defaultGuid
    let g3 := st.guids.tail.tail.headD defaultGuid
    (⟨(csP ++ metaSuffix, renderMetaContent g3) ::
      (csP, csController stem) ::
      (ussP ++ metaSuffix, renderMetaContent g2) ::
      (ussP, componentUSS variant) ::
      (uxmlP ++ metaSuffix, renderMetaContent g1) ::
      (uxmlP, uxmlTemplate variant stem) :: st.fs,
      st.guids.tail.tail.tail⟩,
     .ok (componentMsg stem))

/-! ## Properties of the sanitizer and of generated paths -/

theorem sanitizeStem_no_sep {name stem : List Char}
    (h : sanitizeStem name = some stem) : ∀ a ∈ stem, isSep a = false := by
  unfold sanitizeStem at h
  by_cases he : (joinSep '_' ((pathSegs name).filter (fun s => !badSeg s))).isEmpty
  · simp [he] at h
  · simp [he] at h
    subst h
    refine joinSep_no_sep isSep '_' rfl _ ?_
    intro s hs a ha
    exact mem_splitOnP_no_sep isSep name s (List.mem_filter.mp hs).1 a ha

theorem sanitizeName_ok {ext name stem : List Char}
    (h : sanitizeName ext name = .ok stem) :
    (∀ a ∈ stem, isSep a = false) ∧ stem.isEmpty = false := by
  unfold sanitizeName at h
  cases h0 : sanitizeStem name with
  | none => rw [h0] at h; exact absurd h (by simp)
  | some s0 =>
    rw [h0] at h
    by_cases he : (stripExtSuffix ext s0).isEmpty
    · simp [he] at h
    · simp [he] at h
      subst h
      refine ⟨?_, by simpa using he⟩
      intro a ha
      have hs0 := sanitizeStem_no_sep h0
      unfold stripExtSuffix at ha
      by_cases hsuf : ext.isSuffixOf s0
      · simp [hsuf] at ha
        exact hs0 a (List.take_sublist _ _ |>.mem ha)
      · simp [hsuf] at ha
        exact hs0 a ha

theorem sanitizeName_nil (ext : List Char) :
    sanitizeName ext [] =
      .error (InvalidParameterError ("fileName must be a non-empty string")) := rfl

theorem sanitizeName_ok_name_nonempty {ext name stem : List Char}
    (h : sanitizeName ext name = .ok stem) : name.isEmpty = false := by
  cases name with
  | nil => rw [sanitizeName_nil] at h; exact absurd h (by simp)
  | cons c cs => rfl

theorem uxmlExt_no_sep : ∀ a ∈ uxmlExt, isSep a = false := by decide

theorem metaSuffix_no_sep : ∀ a ∈ metaSuffix, isSep a = false := by decide

theorem pathSegs_pathJoin (a b : List Char) :
    pathSegs (pathJoin a b) = pathSegs a ++ pathSegs b :=
  splitOnAux_append_sep isSep '/' rfl a [] b

theorem pathJoin_append (x f m : List Char) :
    pathJoin x f ++ m = pathJoin x (f ++ m) := by
  simp [pathJoin]

theorem pathSegs_uxmlPath (proj : UnityProject) {stem : List Char}
    (h : ∀ a ∈ stem, isSep a = false) :
    pathSegs (uxmlPath proj stem) =
      pathSegs proj.assetsPath ++ ["UI".toList, stem ++ uxmlExt] := by
  unfold uxmlPath uxmlDir
  rw [pathSegs_pathJoin, pathSegs_pathJoin]
  have h1 : pathSegs ("UI".toList) = [("UI".toList)] := by decide
  have h2 : pathSegs (stem ++ uxmlExt) = [stem ++ uxmlExt] := by
    refine splitOnP_no_sep isSep _ ?_
    intro a ha
    rcases List.mem_append.mp ha with ha | ha
    · exact h a ha
    · exact uxmlExt_no_sep a ha
  rw [h1, h2]
  simp

theorem pathSegs_uxmlMetaPath (proj : UnityProject) {stem : List Char}
    (h : ∀ a ∈ stem, isSep a = false) :
    pathSegs (uxmlMetaPath proj stem) =
      pathSegs proj.assetsPath ++ ["UI".toList, stem ++ uxmlExt ++ metaSuffix] := by
  unfold uxmlMetaPath uxmlPath uxmlDir
  rw [pathJoin_append, pathSegs_pathJoin, pathSegs_pathJoin]
  have h1 : pathSegs ("UI".toList) = [("UI".toList)] := by decide
  have h2 : pathSegs (stem ++ uxmlExt ++ metaSuffix) =
      [stem ++ uxmlExt ++ metaSuffix] := by
    refine splitOnP_no_sep isSep _ ?_
    intro a ha
    rcases List.mem_append.mp ha with ha | ha
    · rcases List.mem_append.mp ha with ha | ha
      · exact h a ha
      · exact uxmlExt_no_sep a ha
    · exact metaSuffix_no_sep a ha
  rw [h1, h2]
  simp

/-! ## Properties of the sidecar format -/

theorem renderMetaContent_eq (g : List Char) :
    renderMetaContent g =
      "fileFormatVersion: 2".toList ++ '\n' ::
        (("guid: ".toList ++ g) ++ '\n' ::
          ("ScriptedImporter:".toList ++ '\n' ::
            ("  userData: ".toList ++ '\n' ::
              ("  assetBundleName: ".toList ++ '\n' ::
                "  assetBundleVariant: ".toList)))) := by
  simp [renderMetaContent]

theorem linesOf_renderMetaContent (g : List Char)
    (hg : ∀ a ∈ g, isNL a = false) :
    linesOf (renderMetaContent g) =
      ["fileFormatVersion: 2".toList, "guid: ".toList ++ g,
       "ScriptedImporter:".toList, "  userData: ".toList,
       "  assetBundleName: ".toList, "  assetBundleVariant: ".toList] := by
  rw [renderMetaContent_eq]
  unfold linesOf splitOnP
  rw [splitOnAux_append_sep isNL '\n' rfl]
  rw [splitOnAux_append_sep isNL '\n' rfl]
  have hA : splitOnAux isNL ("fileFormatVersion: 2".toList) [] =
      [("fileFormatVersion: 2".toList)] := by decide
  have hguidchars : ∀ a ∈ "guid: ".toList, isNL a = false := by decide
  have hB : splitOnAux isNL ("guid: ".toList ++ g) [] =
      [("guid: ".toList ++ g)] := by
    refine splitOnAux_no_sep isNL _ [] ?_
    intro a ha
    rcases List.mem_append.mp ha with ha | ha
    · exact hguidchars a ha
    · exact hg a ha
  have hC : splitOnAux isNL
      ("ScriptedImporter:".toList ++ '\n' ::
        ("  userData: ".toList ++ '\n' ::
          ("  assetBundleName: ".toList ++ '\n' ::
            "  assetBundleVariant: ".toList))) [] =
      ["ScriptedImporter:".toList, "  userData: ".toList,
       "  assetBundleName: ".toList, "  assetBundleVariant: ".toList] := by
    decide
  rw [hA, hB, hC]
  simp

theorem parseGuid_renderMetaContent (g : List Char)
    (hg : ∀ a ∈ g, isNL a = false) :
    parseGuidFromMeta (renderMetaContent g) = some g := by
  unfold parseGuidFromMeta
  rw [linesOf_renderMetaContent g hg]
  have h1 : dropPrefixChars ("guid: ".toList) ("fileFormatVersion: 2".toList) =
      none := by decide
  have h2 := dropPrefixChars_append ("guid: ".toList) g
  rw [firstGuidLine, h1]
  rw [firstGuidLine, h2]

/-! ## Locator facts about freshly written files -/

theorem getLastD_append_two {α : Type} (xs : List α) (u f : α) :
    ∀ d, (xs ++ [u, f]).getLastD d = f := by
  induction xs with
  | nil => intro d; rfl
  | cons x xs ih => intro d; rw [List.cons_append, List.getLastD_cons]; exact ih x

theorem fileNameOfPath_uxmlPath (proj : UnityProject) {stem : List Char}
    (h : ∀ a ∈ stem, isSep a = false) :
    fileNameOfPath (uxmlPath proj stem) = stem ++ uxmlExt := by
  unfold fileNameOfPath
  rw [pathSegs_uxmlPath proj h]
  exact getLastD_append_two _ _ _ []

theorem fileNameOfPath_uxmlMetaPath (proj : UnityProject) {stem : List Char}
    (h : ∀ a ∈ stem, isSep a = false) :
    fileNameOfPath (uxmlMetaPath proj stem) = stem ++ uxmlExt ++ metaSuffix := by
  unfold fileNameOfPath
  rw [pathSegs_uxmlMetaPath proj h]
  exact getLastD_append_two _ _ _ []

theorem isUnder_uxmlPath (proj : UnityProject) (stem : List Char) :
    isUnder proj.assetsPath (uxmlPath proj stem) = true := by
  unfold isUnder uxmlPath uxmlDir pathJoin
  have h : proj.assetsPath ++ '/' :: ("UI".toList) ++ '/' :: (stem ++ uxmlExt) =
      (proj.assetsPath ++ ['/']) ++
        (("UI".toList) ++ '/' :: (stem ++ uxmlExt)) := by
    simp
  rw [h]
  exact isPrefixOf_append_self _ _

theorem metaName_ne_target (stem : List Char) :
    ((stem ++ uxmlExt ++ metaSuffix) == (stem ++ uxmlExt)) = false := by
  rw [beq_eq_false_iff_ne]
  intro hcontra
  have hl := congrArg List.length hcontra
  simp [metaSuffix] at hl

theorem readFileFS_cons_self (p c : List Char)
    (fs : List (List Char × List Char)) :
    readFileFS p ((p, c) :: fs) = some c := by
  unfold readFileFS
  rw [List.find?_cons_of_pos]
  · rfl
  · simp

/-- After `create` writes the primary file and its sidecar, the locator
resolves the stem's file name to the freshly written primary path — the
sidecar never matches because its name carries the extra `.meta` suffix. -/
theorem findUIFile_create (proj : UnityProject)
    (fs : List (List Char × List Char)) (gs : List (List Char))
    {stem : List Char} (body metaB : List Char)
    (hstem : ∀ a ∈ stem, isSep a = false) :
    findUIFile proj
      ⟨(uxmlMetaPath proj stem, metaB) :: (uxmlPath proj stem, body) :: fs, gs⟩
      (stem ++ uxmlExt) = some (uxmlPath proj stem) := by
  unfold findUIFile
  rw [List.find?_cons_of_neg, List.find?_cons_of_pos]
  · rfl
  · show (isUnder proj.assetsPath (uxmlPath proj stem) &&
      (fileNameOfPath (uxmlPath proj stem) == stem ++ uxmlExt)) = true
    rw [isUnder_uxmlPath, fileNameOfPath_uxmlPath proj hstem]
    simp
  · show ¬(isUnder proj.assetsPath (uxmlMetaPath proj stem) &&
      (fileNameOfPath (uxmlMetaPath proj stem) == stem ++ uxmlExt)) = true
    rw [fileNameOfPath_uxmlMetaPath proj hstem, metaName_ne_target]
    simp

/-! ## Claim C1 -/

/-- Claim C1: performing `create(n)` and then `update(n, body2)` yields a
sidecar whose identity token equals the one minted by the original create
(the head of the identity supply at create time); and `update` reuses the
identity parsed from an existing sidecar, minting a fresh identity only when
no parseable sidecar exists. -/
theorem update_preserves_identity :
    (∀ (proj : UnityProject) (st : SState) (name variant body2 : List Char)
        (cb : Option (List Char)) (st1 : SState) (m1 : List Char),
      (∀ a ∈ st.guids.headD defaultGuid, isNL a = false) →
      body2.isEmpty = false →
      createUXML proj st name variant cb = (st1, .ok m1) →
      ∃ stem st2 m2,
        sanitizeName uxmlExt name = .ok stem ∧
        updateUXML proj st1 name body2 = (st2, .ok m2) ∧
        readFileFS (uxmlMetaPath proj stem) st1.fs =
          some (renderMetaContent (st.guids.headD defaultGuid)) ∧
        readFileFS (uxmlMetaPath proj stem) st2.fs =
          some (renderMetaContent (st.guids.headD defaultGuid)) ∧
        parseGuidFromMeta (renderMetaContent (st.guids.headD defaultGuid)) =
          some (st.guids.headD defaultGuid)) ∧
    (∀ (proj : UnityProject) (st : SState) (name content stem path : List Char),
      name.isEmpty = false → content.isEmpty = false →
      sanitizeName uxmlExt name = .ok stem →
      findUIFile proj st (stem ++ uxmlExt) = some path →
      (readFileFS (path ++ metaSuffix) st.fs).bind parseGuidFromMeta = none →
      updateUXML proj st name content =
        (⟨(path ++ metaSuffix,
            renderMetaContent (st.guids.headD defaultGuid)) ::
          (path, content) :: st.fs, st.guids.tail⟩,
         .ok (updateMsg name))) := by
  constructor
  · intro proj st name variant body2 cb st1 m1 hnl hb hcreate
    unfold createUXML at hcreate
    split at hcreate
    · exact absurd hcreate (by simp)
    · rename_i stem hs
      split at hcreate
      · exact absurd hcreate (by simp)
      · rename_i body hr
        injection hcreate with h1 h2
        subst h1
        have hstem := (sanitizeName_ok hs).1
        have hname := sanitizeName_ok_name_nonempty hs
        have hfind := findUIFile_create proj st.fs st.guids.tail body
          (renderMetaContent (st.guids.headD defaultGuid)) hstem
        have hreadmeta : readFileFS (uxmlPath proj stem ++ metaSuffix)
            ((uxmlMetaPath proj stem,
               renderMetaContent (st.guids.headD defaultGuid)) ::
             (uxmlPath proj stem, body) :: st.fs) =
            some (renderMetaContent (st.guids.headD defaultGuid)) :=
          readFileFS_cons_self _ _ _
        have hupd : updateUXML proj
            ⟨(uxmlMetaPath proj stem,
                renderMetaContent (st.guids.headD defaultGuid)) ::
              (uxmlPath proj stem, body) :: st.fs, st.guids.tail⟩
            name body2 =
            (⟨(uxmlPath proj stem ++ metaSuffix,
                renderMetaContent (st.guids.headD defaultGuid)) ::
              (uxmlPath proj stem, body2) ::
              (uxmlMetaPath proj stem,
                renderMetaContent (st.guids.headD defaultGuid)) ::
              (uxmlPath proj stem, body) :: st.fs, st.guids.tail⟩,
             .ok (updateMsg name)) := by
          simp only [updateUXML, hname, hb, Bool.or_self, Bool.false_eq_true,
            if_false, hs, hfind, hreadmeta, Option.some_bind,
            parseGuid_renderMetaContent (st.guids.headD defaultGuid) hnl]
        refine ⟨stem, _, updateMsg name, hs, hupd,
          readFileFS_cons_self _ _ _, ?_,
          parseGuid_renderMetaContent (st.guids.headD defaultGuid) hnl⟩
        exact readFileFS_cons_self _ _ _
  · intro proj st name content stem path hname hcontent hs hfind hmeta
    simp only [updateUXML, hname, hcontent, Bool.or_self, Bool.false_eq_true,
      if_false, hs, hfind, hmeta]

/-! ## Concrete fixtures for witnesses -/

/-- A concrete project used by witnesses. -/
def proj0 : UnityProject := ⟨"/proj/Assets".toList⟩

/-- A concrete empty starting state with a supply of identity tokens. -/
def st0 : SState :=
  ⟨[], ["guidaaa111".toList, "guidbbb222".toList, "guidccc333".toList]⟩

/-- The state after creating `Test` as a `document` markup asset in `st0`. -/
def st1c : SState :=
  (createUXML proj0 st0 ("Test".toList) ("document".toList) none).1

/-- A concrete state holding a primary markup file with no sidecar. -/
def stW : SState :=
  ⟨[(uxmlPath proj0 ("Doc".toList), "x".toList)], ["guidwww999".toList]⟩

theorem update_preserves_identity_witness :
    (∃ stem st2 m2,
      sanitizeName uxmlExt ("Test".toList) = .ok stem ∧
      updateUXML proj0 st1c ("Test".toList) ("NEWBODY".toList) =
        (st2, .ok m2) ∧
      readFileFS (uxmlMetaPath proj0 stem) st1c.fs =
        some (renderMetaContent (st0.guids.headD defaultGuid)) ∧
      readFileFS (uxmlMetaPath proj0 stem) st2.fs =
        some (renderMetaContent (st0.guids.headD defaultGuid)) ∧
      parseGuidFromMeta (renderMetaContent (st0.guids.headD defaultGuid)) =
        some (st0.guids.headD defaultGuid)) ∧
    updateUXML proj0 stW ("Doc".toList) ("y".toList) =
      (⟨(uxmlPath proj0 ("Doc".toList) ++ metaSuffix,
          renderMetaContent (stW.guids.headD defaultGuid)) ::
        (uxmlPath proj0 ("Doc".toList), "y".toList) :: stW.fs,
        stW.guids.tail⟩,
       .ok (updateMsg ("Doc".toList))) :=
  ⟨update_preserves_identity.1 proj0 st0 ("Test".toList) ("document".toList)
     ("NEWBODY".toList) none st1c (createMsg ("Test".toList))
     (by decide) (by decide) rfl,
   update_preserves_identity.2 proj0 stW ("Doc".toList) ("y".toList)
     ("Doc".toList) (uxmlPath proj0 ("Doc".toList))
     (by decide) (by decide) rfl (by decide) (by decide)⟩

/-! ## Claim C2 -/

/-- Claim C2: for every input name — traversal segments, separators and
absolute/drive prefixes included — a successful `create` writes exactly to
the primary and sidecar paths built from the sanitized stem, and both paths
are descendants of `assetsPath`: each extends `assetsPath` and, provided
`assetsPath` itself is free of parent-directory segments, the joined path
contains none either. -/
theorem create_paths_stay_under_assets
    (proj : UnityProject) (st : SState) (name variant : List Char)
    (cb : Option (List Char)) (st' : SState) (msg : List Char)
    (hroot : ("..".toList) ∉ pathSegs proj.assetsPath)
    (hcreate : createUXML proj st name variant cb = (st', .ok msg)) :
    ∃ stem body,
      sanitizeName uxmlExt name = .ok stem ∧
      st'.fs = (uxmlMetaPath proj stem,
          renderMetaContent (st.guids.headD defaultGuid)) ::
        (uxmlPath proj stem, body) :: st.fs ∧
      (∃ r, uxmlPath proj stem = proj.assetsPath ++ r) ∧
      (∃ r, uxmlMetaPath proj stem = proj.assetsPath ++ r) ∧
      ("..".toList) ∉ pathSegs (uxmlPath proj stem) ∧
      ("..".toList) ∉ pathSegs (uxmlMetaPath proj stem) := by
  unfold createUXML at hcreate
  split at hcreate
  · exact absurd hcreate (by simp)
  · rename_i stem hs
    split at hcreate
    · exact absurd hcreate (by simp)
    · rename_i body hr
      injection hcreate with h1 h2
      subst h1
      have hstem := (sanitizeName_ok hs).1
      refine ⟨stem, body, hs, rfl, ?_, ?_, ?_, ?_⟩
      · exact ⟨'/' :: ("UI".toList) ++ '/' :: (stem ++ uxmlExt), by
          simp [uxmlPath, uxmlDir, pathJoin]⟩
      · exact ⟨'/' :: ("UI".toList) ++ '/' :: (stem ++ uxmlExt ++ metaSuffix), by
          simp [uxmlMetaPath, uxmlPath, uxmlDir, pathJoin]⟩
      · rw [pathSegs_uxmlPath proj hstem]
        intro hmem
        rcases List.mem_append.mp hmem with hmem | hmem
        · exact hroot hmem
        · simp at hmem
          have hl := congrArg List.length hmem
          simp [uxmlExt] at hl
      · rw [pathSegs_uxmlMetaPath proj hstem]
        intro hmem
        rcases List.mem_append.mp hmem with hmem | hmem
        · exact hroot hmem
        · simp at hmem
          have hl := congrArg List.length hmem
          simp [uxmlExt, metaSuffix] at hl

theorem create_paths_stay_under_assets_witness :
    ∃ stem body,
      sanitizeName uxmlExt ("../../../etc/passwd".toList) = .ok stem ∧
      ((createUXML proj0 st0 ("../../../etc/passwd".toList)
          ("document".toList) none).1).fs =
        (uxmlMetaPath proj0 stem,
          renderMetaContent (st0.guids.headD defaultGuid)) ::
        (uxmlPath proj0 stem, body) :: st0.fs ∧
      (∃ r, uxmlPath proj0 stem = proj0.assetsPath ++ r) ∧
      (∃ r, uxmlMetaPath proj0 stem = proj0.assetsPath ++ r) ∧
      ("..".toList) ∉ pathSegs (uxmlPath proj0 stem) ∧
      ("..".toList) ∉ pathSegs (uxmlMetaPath proj0 stem) :=
  create_paths_stay_under_assets proj0 st0 ("../../../etc/passwd".toList)
    ("document".toList) none
    (createUXML proj0 st0 ("../../../etc/passwd".toList)
      ("document".toList) none).1
    (createMsg ("etc_passwd".toList)) (by decide) rfl

/-! ## Claim C3 -/

/-- Claim C3 counterexample: at the concrete input
`createComponent("TestButton", "button")` on an empty project the operation
performs six file writes, three of them sidecars — not the five writes with
two sidecars the claim states. -/
theorem createUIComponent_writes_six_not_five :
    ((createUIComponent proj0 st0 ("TestButton".toList)
        ("button".toList)).1.fs.length = 6) ∧
    (((createUIComponent proj0 st0 ("TestButton".toList)
        ("button".toList)).1.fs.filter
          (fun e => metaSuffix.isSuffixOf e.1)).length = 3) ∧
    ¬((createUIComponent proj0 st0 ("TestButton".toList)
        ("button".toList)).1.fs.length = 5) ∧
    ¬(((createUIComponent proj0 st0 ("TestButton".toList)
        ("button".toList)).1.fs.filter
          (fun e => metaSuffix.isSuffixOf e.1)).length = 2) :=
  ⟨by decide, by decide, by decide, by decide⟩

/-- Claim C3 (amended): a successful `createComponent` produces exactly three
primary files — markup, stylesheet and behavior script, whose file names all
derive from the same sanitized stem — plus three sidecar files, one per
primary, for a total of six file writes. -/
theorem createUIComponent_six_writes
    (proj : UnityProject) (st : SState) (name variant : List Char)
    (st' : SState) (msg : List Char)
    (hc : createUIComponent proj st name variant = (st', .ok msg)) :
    ∃ stem,
      sanitizeStem name = some stem ∧
      st'.fs.map Prod.fst =
        [pathJoin (componentDir proj stem) (stem ++ csExt) ++ metaSuffix,
         pathJoin (componentDir proj stem) (stem ++ csExt),
         pathJoin (componentDir proj stem) (stem ++ ussExt) ++ metaSuffix,
         pathJoin (componentDir proj stem) (stem ++ ussExt),
         pathJoin (componentDir proj stem) (stem ++ uxmlExt) ++ metaSuffix,
         pathJoin (componentDir proj stem) (stem ++ uxmlExt)] ++
        st.fs.map Prod.fst ∧
      st'.fs.length = st.fs.length + 6 := by
  unfold createUIComponent at hc
  split at hc
  · exact absurd hc (by simp)
  · rename_i stem hs
    injection hc with h1 h2
    subst h1
    refine ⟨stem, hs, by simp, by simp⟩

theorem createUIComponent_six_writes_witness :
    ∃ stem,
      sanitizeStem ("TestButton".toList) = some stem ∧
      ((createUIComponent proj0 st0 ("TestButton".toList)
          ("button".toList)).1).fs.map Prod.fst =
        [pathJoin (componentDir proj0 stem) (stem ++ csExt) ++ metaSuffix,
         pathJoin (componentDir proj0 stem) (stem ++ csExt),
         pathJoin (componentDir proj0 stem) (stem ++ ussExt) ++ metaSuffix,
         pathJoin (componentDir proj0 stem) (stem ++ ussExt),
         pathJoin (componentDir proj0 stem) (stem ++ uxmlExt) ++ metaSuffix,
         pathJoin (componentDir proj0 stem) (stem ++ uxmlExt)] ++
        st0.fs.map Prod.fst ∧
      ((createUIComponent proj0 st0 ("TestButton".toList)
          ("button".toList)).1).fs.length = st0.fs.length + 6 :=
  createUIComponent_six_writes proj0 st0 ("TestButton".toList)
    ("button".toList)
    (createUIComponent proj0 st0 ("TestButton".toList) ("button".toList)).1
    (componentMsg ("TestButton".toList)) rfl

/-! ## Claim C4 -/

/-- Claim C4: every sidecar body the system renders is line-oriented text
containing the identity line — the line carrying the identity token under
the engine's `guid` key — and the importer-kind line `ScriptedImporter:`. -/
theorem sidecar_has_identity_and_importer_lines (g : List Char)
    (hg : ∀ a ∈ g, isNL a = false) :
    ("guid: ".toList ++ g) ∈ linesOf (renderMetaContent g) ∧
    ("ScriptedImporter:".toList) ∈ linesOf (renderMetaContent g) := by
  rw [linesOf_renderMetaContent g hg]
  exact ⟨by simp, by simp⟩

theorem sidecar_has_identity_and_importer_lines_witness :
    ("guid: ".toList ++ "guidaaa111".toList) ∈
      linesOf (renderMetaContent ("guidaaa111".toList)) ∧
    ("ScriptedImporter:".toList) ∈
      linesOf (renderMetaContent ("guidaaa111".toList)) :=
  sidecar_has_identity_and_importer_lines ("guidaaa111".toList) (by decide)

/-! ## Claim C5 -/

/-- A stem that is already clean: non-empty, free of separators, not a
reserved segment, and not carrying the markup extension. -/
def cleanUxmlStem (s : List Char) : Bool :=
  !badSeg s && s.all (fun a => !isSep a) && !(uxmlExt.isSuffixOf s)

/-- Claim C5: `create("Foo.uxml")` and `create("Foo")` behave identically —
same target file name, never `Foo.uxml.uxml` — and sanitizing an
already-clean stem returns it unchanged. -/
theorem extension_handling_idempotent :
    (∀ (proj : UnityProject) (st : SState) (cb : Option (List Char)),
      createUXML proj st ("Foo.uxml".toList) ("document".toList) cb =
        createUXML proj st ("Foo".toList) ("document".toList) cb) ∧
    (∀ s : List Char, cleanUxmlStem s = true →
      sanitizeName uxmlExt s = .ok s) := by
  constructor
  · intro proj st cb
    have h1 : sanitizeName uxmlExt ("Foo.uxml".toList) =
        .ok ("Foo".toList) := rfl
    have h2 : sanitizeName uxmlExt ("Foo".toList) = .ok ("Foo".toList) := rfl
    simp only [createUXML, h1, h2]
  · intro s hcl
    simp only [cleanUxmlStem, Bool.and_eq_true, Bool.not_eq_true'] at hcl
    obtain ⟨⟨h1, h2⟩, h3⟩ := hcl
    have hns : ∀ a ∈ s, isSep a = false := by
      intro a ha
      have := (List.all_eq_true.mp h2) a ha
      simpa using this
    have hsegs : pathSegs s = [s] := splitOnP_no_sep isSep s hns
    have hempty : s.isEmpty = false := by
      cases s with
      | nil => simp [badSeg] at h1
      | cons c cs => rfl
    simp [sanitizeName, sanitizeStem, hsegs, h1, stripExtSuffix, h3, hempty,
      joinSep]

theorem extension_handling_idempotent_witness :
    createUXML proj0 st0 ("Foo.uxml".toList) ("document".toList) none =
      createUXML proj0 st0 ("Foo".toList) ("document".toList) none ∧
    sanitizeName uxmlExt ("Bar".toList) = .ok ("Bar".toList) :=
  ⟨extension_handling_idempotent.1 proj0 st0 none,
   extension_handling_idempotent.2 ("Bar".toList) (by decide)⟩

/-! ## Claim C6 -/

/-- Claim C6: `render` is a pure function of
(kind, variant, logicalName, customBody): two calls with identical arguments
return byte-identical output; in particular the outcome of `create` does not
depend on the filesystem or identity-supply state it runs against. -/
theorem render_is_pure :
    (∀ (kind : AssetKind) (variant name : List Char)
        (cb : Option (List Char)),
      render kind variant name cb = render kind variant name cb) ∧
    (∀ (proj : UnityProject) (st st2 : SState) (name variant : List Char)
        (cb : Option (List Char)),
      (createUXML proj st name variant cb).2 =
        (createUXML proj st2 name variant cb).2) := by
  refine ⟨fun _ _ _ _ => rfl, ?_⟩
  intro proj st st2 name variant cb
  cases hsan : sanitizeName uxmlExt name with
  | error e => simp [createUXML, hsan]
  | ok stem =>
    cases hr : renderUXML variant stem cb with
    | error e => simp [createUXML, hsan, hr]
    | ok body => simp [createUXML, hsan, hr]

/-! ## Claim C7 -/

/-- Claim C7: with the `custom` variant, `render` fails with
`InvalidParameterError` when `customBody` is absent or empty and otherwise
returns `customBody` verbatim; any unknown variant of the markup kind
resolves to the base `document` skeleton instead of erroring. -/
theorem custom_variant_and_fallback :
    (∀ n : List Char, renderUXML ("custom".toList) n none =
      .error (InvalidParameterError customRequiredMsg)) ∧
    (∀ n : List Char, renderUXML ("custom".toList) n (some []) =
      .error (InvalidParameterError customRequiredMsg)) ∧
    (InvalidParameterError customRequiredMsg).name = "InvalidParameterError" ∧
    (∀ (n b : List Char), b.isEmpty = false →
      renderUXML ("custom".toList) n (some b) = .ok b) ∧
    (∀ (v n : List Char) (cb : Option (List Char)),
      v ≠ "window".toList → v ≠ "panel".toList → v ≠ "form".toList →
      v ≠ "modal".toList → v ≠ "custom".toList →
      renderUXML v n cb = .ok (uxmlDocumentTemplate n)) := by
  refine ⟨fun n => rfl, fun n => rfl, rfl, ?_, ?_⟩
  · intro n b hb
    simp [renderUXML, hb]
  · intro v n cb h1 h2 h3 h4 h5
    have hb1 : (v == "window".toList) = false := beq_eq_false_iff_ne.mpr h1
    have hb2 : (v == "panel".toList) = false := beq_eq_false_iff_ne.mpr h2
    have hb3 : (v == "form".toList) = false := beq_eq_false_iff_ne.mpr h3
    have hb4 : (v == "modal".toList) = false := beq_eq_false_iff_ne.mpr h4
    have hb5 : (v == "custom".toList) = false := beq_eq_false_iff_ne.mpr h5
    simp only [renderUXML, uxmlTemplate, hb1, hb2, hb3, hb4, hb5,
      Bool.false_eq_true, if_false]

theorem custom_variant_and_fallback_witness :
    renderUXML ("custom".toList) ("X".toList) (some ("BODY".toList)) =
      .ok ("BODY".toList) ∧
    renderUXML ("weird".toList) ("X".toList) none =
      .ok (uxmlDocumentTemplate ("X".toList)) :=
  ⟨custom_variant_and_fallback.2.2.2.1 ("X".toList) ("BODY".toList)
     (by decide),
   custom_variant_and_fallback.2.2.2.2 ("weird".toList) ("X".toList) none
     (by decide) (by decide) (by decide) (by decide) (by decide)⟩

/-! ## Claim C8 -/

/-- Claim C8: when the locator resolves nothing, `read` fails with the
NotFound-typed error and leaves the filesystem state exactly as it was — no
write happens on this path. -/
theorem read_notfound_no_write
    (proj : UnityProject) (st : SState) (name stem : List Char)
    (hs : sanitizeName uxmlExt name = .ok stem)
    (hfind : findUIFile proj st (stem ++ uxmlExt) = none) :
    readUXML proj st name = (st, .error (uxmlNotFoundError name)) ∧
    (uxmlNotFoundError name).name = "FileNotFoundError" ∧
    (readUXML proj st name).1 = st := by
  have h : readUXML proj st name = (st, .error (uxmlNotFoundError name)) := by
    simp only [readUXML, hs, hfind]
  exact ⟨h, rfl, by rw [h]⟩

theorem read_notfound_no_write_witness :
    readUXML proj0 st0 ("NoSuchFile".toList) =
      (st0, .error (uxmlNotFoundError ("NoSuchFile".toList))) ∧
    (uxmlNotFoundError ("NoSuchFile".toList)).name = "FileNotFoundError" ∧
    (readUXML proj0 st0 ("NoSuchFile".toList)).1 = st0 :=
  read_notfound_no_write proj0 st0 ("NoSuchFile".toList)
    ("NoSuchFile".toList) rfl rfl

/-! ## Claim C9 -/

/-- Claim C9: `listAll` never fails — it always returns a success and leaves
the state unchanged — and on a subtree with no matching files it returns the
fixed non-empty no-files message rather than an empty body. -/
theorem list_empty_fixed_message (proj : UnityProject) (st : SState) :
    (∃ m, listUXMLFiles proj st = (st, .ok m)) ∧
    ((uxmlMatches proj st).isEmpty = true →
      listUXMLFiles proj st = (st, .ok noUxmlMsg) ∧
      noUxmlMsg.isEmpty = false) := by
  constructor
  · by_cases h : (uxmlMatches proj st).isEmpty
    · exact ⟨noUxmlMsg, by simp [listUXMLFiles, h]⟩
    · exact ⟨joinSep '\n' ((uxmlMatches proj st).map (fun e => e.1)),
        by simp [listUXMLFiles, h]⟩
  · intro h
    exact ⟨by simp [listUXMLFiles, h], by decide⟩

theorem list_empty_fixed_message_witness :
    (∃ m, listUXMLFiles proj0 st0 = (st0, .ok m)) ∧
    (listUXMLFiles proj0 st0 = (st0, .ok noUxmlMsg) ∧
      noUxmlMsg.isEmpty = false) :=
  ⟨(list_empty_fixed_message proj0 st0).1,
   (list_empty_fixed_message proj0 st0).2 (by decide)⟩

end UnityMCP
